import Mathlib

/-!
Verification of `src/gdls_star/gdls_star_robust_estimator.cc` (gDLS* robust
estimator, a RANSAC-style hypothesize-and-test loop).

The estimator's arithmetic is embedded over exact numbers: the scoring,
ratios and confidence over `ℚ`, and the logarithm-based adaptive iteration
bound over `ℝ`.  External collaborators that are not part of the source file
(the minimal solver `GdlsStar::EstimateSimilarityTransformation`, the
`PinholeCamera` projection, and the standard-library random machinery) are
modelled from the spec as explicit oracle values.
-/

set_option maxHeartbeats 1000000

/-- Minimal sample size (`kMinimalSampleSize`, gdls_star_robust_estimator.cc:27). -/
def kMinimalSampleSize : ℕ := 4

/-- `std::numeric_limits<double>::epsilon()`, the machine epsilon 2^-52,
used by `UpdateBestSolution` (cc:76) and `ComputeMaxIterations` (cc:133). -/
def epsQ : ℚ := 1 / 2 ^ 52

/-- A 2D pixel. -/
abbrev Vec2 := ℚ × ℚ

/-- A 3D point. -/
abbrev Vec3 := ℚ × ℚ × ℚ

/-- Squared Euclidean norm of a 2D vector (Eigen `squaredNorm`, cc:99). -/
def sqNorm2 (v : Vec2) : ℚ := v.1 * v.1 + v.2 * v.2

/-- Componentwise scalar multiple of a 3-vector. -/
def smul3 (c : ℚ) (v : Vec3) : Vec3 := (c * v.1, c * v.2.1, c * v.2.2)

/-- Componentwise division of a 3-vector by a scalar (Eigen `vector / scale`,
cc:91). -/
def vdiv (v : Vec3) (s : ℚ) : Vec3 := (v.1 / s, v.2.1 / s, v.2.2 / s)

/-- Cross product of 3-vectors. -/
def cross (a b : Vec3) : Vec3 :=
  (a.2.1 * b.2.2 - a.2.2 * b.2.1,
   a.2.2 * b.1 - a.1 * b.2.2,
   a.1 * b.2.1 - a.2.1 * b.1)

/-- An Eigen-style quaternion (w, x, y, z). -/
structure Quat where
  w : ℚ
  x : ℚ
  y : ℚ
  z : ℚ
deriving DecidableEq

/-- `Eigen::Quaterniond::Identity()` (cc:166). -/
def idQuat : Quat := ⟨1, 0, 0, 0⟩

/-- Modelled from the spec: Eigen's rotation of a 3-vector by a unit
quaternion (`rotation * point`, cc:91; Eigen itself is not under src/),
computed as v + 2w (u x v) + 2 (u x (u x v)) with u the vector part. -/
def quatRot (q : Quat) (v : Vec3) : Vec3 :=
  v + smul3 (2 * q.w) (cross (q.x, q.y, q.z) v) +
    smul3 2 (cross (q.x, q.y, q.z) (cross (q.x, q.y, q.z) v))

/-- Modelled from the spec: the camera collaborator contract
`project(point_in_camera_frame) -> pixel` signalling failure (point behind
the camera / degenerate) — `PinholeCamera::ProjectPoint` (cc:94) returns a
negative depth on failure, modelled as `none`. -/
structure PinholeCamera where
  projectPoint : Vec3 → Option Vec2

/-- A 2D-3D correspondence (`CameraFeatureCorrespondence2D3D`; its struct is
declared outside src/, with the fields the source file reads: `point`,
`observation`, `camera`). -/
structure CameraFeatureCorrespondence2D3D where
  camera : PinholeCamera
  observation : Vec2
  point : Vec3

/-- A default correspondence, used as the out-of-range placeholder for list
indexing in the embedding. -/
def defaultCorr : CameraFeatureCorrespondence2D3D :=
  ⟨⟨fun _ => none⟩, (0, 0), (0, 0, 0)⟩

/-- `GdlsStar::Solution`: parallel rotation / translation / scale sequences
(declared outside src/; the source file reads `rotations`, `translations`,
`scales` in parallel, cc:77-80). -/
structure Solution where
  rotations : List Quat
  translations : List Vec3
  scales : List ℚ
deriving DecidableEq

/-- Modelled from the spec: opaque priors payload, forwarded unmodified to
the minimal solver (cc:179). -/
structure Priors where
  payload : List ℚ

/-- Modelled from the spec: the minimal-solver input datum, built from the
minimal sample by `ComputeInputDatum` (cc:178) with the priors attached. -/
structure GdlsInput where
  sample : List CameraFeatureCorrespondence2D3D
  priors : Priors

/-- Modelled from the spec: the minimal-solver collaborator
`GdlsStar::EstimateSimilarityTransformation` (cc:181) — maps an input datum
to zero (failure, `none`) or more candidate hypotheses. -/
abbrev MinimalSolver := GdlsInput → Option Solution

/-- Modelled from the spec (§4.1): the `RansacParameters` struct, declared in
the header which is not under src/. -/
structure RansacParameters where
  failure_probability : ℚ
  reprojection_error_thresh : ℚ
  min_iterations : ℤ
  max_iterations : ℤ
  seed : ℕ

/-- Modelled from the spec: the `RansacSummary` record (inlier index set,
iteration count, cumulative hypothesis count, confidence). -/
structure RansacSummary where
  inliers : List ℕ
  num_iterations : ℕ
  num_hypotheses : ℕ
  confidence : ℚ

/-- Modelled from the spec: one step of a deterministic pseudo-random
generator (`std::mt19937` is outside src/); a linear congruential step. -/
def lcgStep (s : ℕ) : ℕ := (48271 * s + 12345) % 2147483647

/-- A deterministic pseudo-random stream. -/
abbrev Prng := ℕ → ℕ

/-- Modelled from the spec: seeding the generator (cc:31, `prng_(seed)`). -/
def prngOfSeed (seed : ℕ) : Prng := fun n => lcgStep^[n + 1] seed

/-- Modelled from the spec: `RandInt` (cc:40-43),
`std::uniform_int_distribution<int>(lo, hi)` applied to the generator —
consumes one stream value, returns a value in `[lo, hi]` and the advanced
stream. -/
def randInt (lo hi : ℕ) (g : Prng) : ℕ × Prng :=
  (lo + g 0 % (hi + 1 - lo), fun n => g (n + 1))

/-- The parameter constraints checked by the constructor (cc:33-37). -/
def validParams (p : RansacParameters) : Prop :=
  0 < p.failure_probability ∧ p.failure_probability < 1 ∧
    0 < p.reprojection_error_thresh ∧ 0 ≤ p.min_iterations ∧
    p.min_iterations < p.max_iterations

instance (p : RansacParameters) : Decidable (validParams p) := by
  unfold validParams; infer_instance

/-- The constructed estimator: validated parameters plus the seeded
generator. -/
structure GdlsStarRobustEstimator where
  params : RansacParameters
  prng : Prng

/-- Construction (cc:29-38): stores the parameters, seeds the generator, and
CHECK-validates the parameters; a violated constraint is fatal (`none`). -/
def mkEstimator (p : RansacParameters) : Option GdlsStarRobustEstimator :=
  if validParams p then some ⟨p, prngOfSeed p.seed⟩ else none

/-- `std::swap` of two positions of the index array (cc:53-54). -/
def listSwap (l : List ℕ) (i j : ℕ) : List ℕ :=
  (l.set i (l.getD j 0)).set j (l.getD i 0)

/-- The selection loop of `Sample` (cc:51-57): starting at position `i`, `k`
Fisher-Yates swap-select steps on the index array, drawing each selected
index.  Returns the drawn indices, the updated array and the advanced
generator. -/
def sampleAux (n : ℕ) : ℕ → ℕ → List ℕ → Prng → List ℕ × List ℕ × Prng
  | _, 0, arr, g => ([], arr, g)
  | i, k + 1, arr, g =>
    let r := randInt i (n - 1) g
    let arr1 := listSwap arr i r.1
    let rest := sampleAux n (i + 1) k arr1 r.2
    (arr1.getD i 0 :: rest.1, rest.2.1, rest.2.2)

/-- The indices drawn by one `Sample` call on `n` correspondences. -/
def sampleIndices (n : ℕ) (arr : List ℕ) (g : Prng) : List ℕ × List ℕ × Prng :=
  sampleAux n 0 kMinimalSampleSize arr g

/-- One `Sample` call (cc:45-59): draws `kMinimalSampleSize` indices and
returns copies of the correspondences at those indices, in draw order,
together with the updated index array and generator. -/
def sample (corrs : List CameraFeatureCorrespondence2D3D) (arr : List ℕ) (g : Prng) :
    List CameraFeatureCorrespondence2D3D × List ℕ × Prng :=
  let r := sampleIndices corrs.length arr g
  (r.1.map fun d => corrs.getD d defaultCorr, r.2.1, r.2.2)

/-- Is correspondence `c` an inlier of hypothesis `(q, t, s)` (cc:85-103)?
The point is mapped to the generalized frame via
`(rotation * point + translation) / scale`, projected through the
correspondence's own camera (skipped on failure), and classified by strict
comparison of the squared reprojection error with the squared threshold. -/
def isInlier (thresh2 : ℚ) (q : Quat) (t : Vec3) (s : ℚ)
    (c : CameraFeatureCorrespondence2D3D) : Bool :=
  match c.camera.projectPoint (vdiv (quatRot q c.point + t) s) with
  | none => false
  | some pixel => decide (sqNorm2 (pixel - c.observation) < thresh2)

/-- The inlier index list collected for one hypothesis (cc:85-104):
ascending correspondence indices that pass `isInlier`. -/
def inlierIndices (corrs : List CameraFeatureCorrespondence2D3D) (thresh2 : ℚ)
    (q : Quat) (t : Vec3) (s : ℚ) : List ℕ :=
  (List.range corrs.length).filter fun j =>
    isInlier thresh2 q t s (corrs.getD j defaultCorr)

/-- The `i`-th hypothesis of a `Solution` (cc:78-80). -/
def hypAt (sols : Solution) (i : ℕ) : Quat × Vec3 × ℚ :=
  (sols.rotations.getD i idQuat, sols.translations.getD i (0, 0, 0),
    sols.scales.getD i 0)

/-- The inlier count of the `i`-th hypothesis of `sols`. -/
def cntAt (corrs : List CameraFeatureCorrespondence2D3D) (thresh2 : ℚ)
    (sols : Solution) (i : ℕ) : ℕ :=
  (inlierIndices corrs thresh2 (hypAt sols i).1 (hypAt sols i).2.1
    (hypAt sols i).2.2).length

/-- The per-hypothesis body of `UpdateBestSolution` (cc:77-117): score the
hypothesis, and when its inlier count strictly exceeds the current best
count, replace the best inlier set, overwrite entry 0 of the best solution,
and set the running ratio to the new count over the total. -/
def ubsStep (corrs : List CameraFeatureCorrespondence2D3D) (thresh2 : ℚ)
    (q : Quat) (t : Vec3) (s : ℚ) (acc : ℚ × Solution × List ℕ) :
    ℚ × Solution × List ℕ :=
  let inliers := inlierIndices corrs thresh2 q t s
  if acc.2.2.length < inliers.length then
    ((inliers.length : ℚ) / (corrs.length : ℚ),
      ⟨acc.2.1.rotations.set 0 q, acc.2.1.translations.set 0 t,
        acc.2.1.scales.set 0 s⟩,
      inliers)
  else acc

/-- `ubsStep` applied to the `i`-th hypothesis of `sols`. -/
def ubsAt (corrs : List CameraFeatureCorrespondence2D3D) (thresh2 : ℚ)
    (sols : Solution) (i : ℕ) (acc : ℚ × Solution × List ℕ) :
    ℚ × Solution × List ℕ :=
  ubsStep corrs thresh2 (hypAt sols i).1 (hypAt sols i).2.1 (hypAt sols i).2.2 acc

/-- `UpdateBestSolution` (cc:61-120): the running ratio starts at the
incoming best count over the total plus machine epsilon (cc:74-76), then
every hypothesis is scored in order.  Returns the final ratio, best
solution and best inlier set. -/
def updateBestSolution (corrs : List CameraFeatureCorrespondence2D3D)
    (thresh2 : ℚ) (sols : Solution) (best : Solution) (bestInliers : List ℕ) :
    ℚ × Solution × List ℕ :=
  (List.range sols.rotations.length).foldl
    (fun acc i => ubsAt corrs thresh2 sols i acc)
    ((bestInliers.length : ℚ) / (corrs.length : ℚ) + epsQ, best, bestInliers)

/-- `static_cast<int>` of a double value (cc:136): truncation toward zero. -/
noncomputable def intTrunc (x : ℝ) : ℤ := if 0 ≤ x then ⌊x⌋ else ⌈x⌉

/-- `std::clamp(v, lo, hi)` (cc:138-140). -/
def clampInt (v lo hi : ℤ) : ℤ := if v < lo then lo else if hi < v then hi else v

/-- `ComputeMaxIterations` (cc:122-141): `min_iterations` for a perfect
ratio, otherwise the standard adaptive RANSAC bound
`log_failure_prob / (log(1 - ratio^K) - epsilon)` truncated to int and
clamped into `[min_iterations, max_iterations]`. -/
noncomputable def computeMaxIterations (params : RansacParameters)
    (inlier_ratio : ℚ) (log_failure_prob : ℝ) : ℤ :=
  if inlier_ratio = 1 then params.min_iterations
  else
    clampInt
      (intTrunc (log_failure_prob /
        (Real.log (1 - (inlier_ratio : ℝ) ^ kMinimalSampleSize) - (epsQ : ℝ))))
      params.min_iterations params.max_iterations

/-- `ComputeMaxIterations` behind its fatal precondition
`CHECK_GT(inlier_ratio, 0.0)` (cc:125): `none` models the aborting CHECK. -/
noncomputable def computeMaxIterationsChecked (params : RansacParameters)
    (inlier_ratio : ℚ) (log_failure_prob : ℝ) : Option ℤ :=
  if 0 < inlier_ratio then some (computeMaxIterations params inlier_ratio log_failure_prob)
  else none

/-- The mutable state of one `Estimate` run: the sampler's index array and
generator, the running best solution and inlier set, the two summary
counters, the last observed inlier ratio, and the adaptive iteration
bound. -/
structure LoopState where
  arr : List ℕ
  g : Prng
  best : Solution
  inliers : List ℕ
  num_iterations : ℕ
  num_hypotheses : ℕ
  inlier_ratio : ℚ
  maxIt : ℤ

/-- One iteration of the hypothesize-and-test loop (cc:171-197): draw a
sample; on solver failure only the iteration counter advances; otherwise
accumulate the hypothesis count, update the best solution, and recompute the
iteration bound (through the fatal ratio CHECK). -/
noncomputable def loopBody (params : RansacParameters) (solve : MinimalSolver)
    (priors : Priors) (corrs : List CameraFeatureCorrespondence2D3D) (lfp : ℝ)
    (st : LoopState) : Option LoopState :=
  let s := sample corrs st.arr st.g
  match solve ⟨s.1, priors⟩ with
  | none =>
    some { st with arr := s.2.1, g := s.2.2,
                   num_iterations := st.num_iterations + 1 }
  | some hyps =>
    let u := updateBestSolution corrs
      (params.reprojection_error_thresh * params.reprojection_error_thresh)
      hyps st.best st.inliers
    match computeMaxIterationsChecked params u.1 lfp with
    | none => none
    | some m =>
      some { arr := s.2.1, g := s.2.2, best := u.2.1, inliers := u.2.2,
             num_iterations := st.num_iterations + 1,
             num_hypotheses := st.num_hypotheses + hyps.rotations.length,
             inlier_ratio := u.1, maxIt := m }

/-- The fuelled hypothesize-and-test loop: while
`num_iterations < max_iterations`, run `loopBody`.  The fuel is an upper
bound on the iterations actually executed; `estimateFull` supplies
`max_iterations` as fuel, which suffices because the bound never exceeds
`params.max_iterations` while the counter grows by one per iteration. -/
noncomputable def loop (params : RansacParameters) (solve : MinimalSolver)
    (priors : Priors) (corrs : List CameraFeatureCorrespondence2D3D) (lfp : ℝ) :
    ℕ → LoopState → Option LoopState
  | 0, st => some st
  | f + 1, st =>
    if (st.num_iterations : ℤ) < st.maxIt then
      match loopBody params solve priors corrs lfp st with
      | none => none
      | some st1 => loop params solve priors corrs lfp f st1
    else some st

/-- The identity fallback solution (cc:165-168). -/
def identitySolution : Solution := ⟨[idQuat], [(0, 0, 0)], [1]⟩

/-- The run state entering the loop (cc:148-170): incoming inliers cleared,
identity index array, seeded generator, identity best solution, zero ratio,
the caller-supplied cumulative hypothesis count, and the configured
iteration bound. -/
def initialLoopState (params : RansacParameters)
    (corrs : List CameraFeatureCorrespondence2D3D) (summary0 : RansacSummary) :
    LoopState :=
  { arr := List.range corrs.length, g := prngOfSeed params.seed,
    best := identitySolution, inliers := [],
    num_iterations := 0, num_hypotheses := summary0.num_hypotheses,
    inlier_ratio := 0, maxIt := params.max_iterations }

/-- `Estimate` up to its final state (cc:143-197): `none` models a fatal
CHECK (fewer than `kMinimalSampleSize` correspondences, or the ratio CHECK
inside `ComputeMaxIterations`). -/
noncomputable def estimateFull (params : RansacParameters) (solve : MinimalSolver)
    (priors : Priors) (corrs : List CameraFeatureCorrespondence2D3D)
    (summary0 : RansacSummary) : Option LoopState :=
  if corrs.length < kMinimalSampleSize then none
  else
    loop params solve priors corrs (Real.log (params.failure_probability : ℝ))
      params.max_iterations.toNat (initialLoopState params corrs summary0)

/-- `Estimate` (cc:143-206): the returned best solution and the populated
summary, with the final confidence
`1 - (1 - inlier_ratio^K)^num_iterations` (cc:199-202). -/
noncomputable def estimate (params : RansacParameters) (solve : MinimalSolver)
    (priors : Priors) (corrs : List CameraFeatureCorrespondence2D3D)
    (summary0 : RansacSummary) : Option (Solution × RansacSummary) :=
  (estimateFull params solve priors corrs summary0).map fun st =>
    (st.best,
      { inliers := st.inliers, num_iterations := st.num_iterations,
        num_hypotheses := st.num_hypotheses,
        confidence :=
          1 - (1 - st.inlier_ratio ^ kMinimalSampleSize) ^ st.num_iterations })

/-! ### Concrete fixtures for witnesses and counterexamples -/

/-- Empty priors payload. -/
def priors0 : Priors := ⟨[]⟩

/-- A minimal solver that always fails. -/
def solverNone : MinimalSolver := fun _ => none

/-- A minimal solver that always returns the single identity hypothesis. -/
def solverId : MinimalSolver := fun _ => some identitySolution

/-- An incoming summary with all fields zeroed. -/
def sum0 : RansacSummary := ⟨[], 0, 0, 0⟩

/-- A camera that projects every point onto the pixel (0, 0). -/
def camHit : PinholeCamera := ⟨fun _ => some (0, 0)⟩

/-- A correspondence whose reprojection error is 0 for every hypothesis. -/
def corrHit : CameraFeatureCorrespondence2D3D := ⟨camHit, (0, 0), (0, 0, 0)⟩

/-- Four correspondences that are inliers of every hypothesis. -/
def corrsHit : List CameraFeatureCorrespondence2D3D :=
  [corrHit, corrHit, corrHit, corrHit]

/-- A camera that projects every point onto the pixel (10, 0), far from the
observation (0, 0). -/
def camMiss : PinholeCamera := ⟨fun _ => some (10, 0)⟩

/-- A correspondence whose reprojection error is 100 for every hypothesis. -/
def corrMiss : CameraFeatureCorrespondence2D3D := ⟨camMiss, (0, 0), (0, 0, 0)⟩

/-- Four correspondences that are outliers of every hypothesis. -/
def corrsMiss : List CameraFeatureCorrespondence2D3D :=
  [corrMiss, corrMiss, corrMiss, corrMiss]

/-- Well-formed parameters used by witnesses. -/
def pW : RansacParameters := ⟨1/2, 1, 0, 10, 0⟩

/-- Parameters of the perfect-fit run: `min_iterations = 0`,
`max_iterations = 5`. -/
def pC2 : RansacParameters := ⟨1/2, 1, 0, 5, 0⟩


/-- An incoming summary with nonzero fields, for the reset counterexample. -/
def sumB : RansacSummary := ⟨[9], 7, 5, 1/2⟩

/-- Parameters of the all-outlier counterexample run: failure probability
1 - 2^-53 (close to 1), `min_iterations = 0`, `max_iterations = 2`. -/
def pC5 : RansacParameters := ⟨1 - 1/2^53, 1, 0, 2, 0⟩

/-- The empty hypothesis set. -/
def solEmpty : Solution := ⟨[], [], []⟩

/-! ### Sampler helper lemmas -/

lemma listSwap_length (l : List ℕ) (i j : ℕ) : (listSwap l i j).length = l.length := by
  simp [listSwap]

lemma getD_eq_getElem (l : List ℕ) (p : ℕ) (hp : p < l.length) : l.getD p 0 = l[p] := by
  rw [List.getD_eq_getElem?_getD, List.getElem?_eq_getElem hp]
  rfl

lemma listSwap_perm (l : List ℕ) (i j : ℕ) (hi : i < l.length) (hj : j < l.length) :
    List.Perm (listSwap l i j) l := by
  rw [List.perm_iff_count]
  intro a
  unfold listSwap
  rw [getD_eq_getElem l i hi, getD_eq_getElem l j hj]
  have hsetlen : j < (l.set i l[j]).length := by simpa using hj
  rw [List.count_set _ _ _ _ hsetlen, List.count_set _ _ _ _ hi,
    List.getElem_set hsetlen, ite_self]
  have hcx : (l[i] == a) = true → 1 ≤ List.count a l := by
    intro h
    exact List.count_pos_iff.mpr (by rw [← beq_iff_eq.mp h]; exact List.getElem_mem hi)
  rcases Bool.eq_false_or_eq_true (l[i] == a) with h1 | h1 <;>
    rcases Bool.eq_false_or_eq_true (l[j] == a) with h2 | h2 <;>
      simp [h1, h2]
  all_goals
    have hc := hcx h1
    omega

lemma listSwap_getD_ne (l : List ℕ) (i j p : ℕ) (hpi : p ≠ i) (hpj : p ≠ j) :
    (listSwap l i j).getD p 0 = l.getD p 0 := by
  unfold listSwap
  simp only [List.getD_eq_getElem?_getD]
  rw [List.getElem?_set_ne (Ne.symm hpj), List.getElem?_set_ne (Ne.symm hpi)]

lemma randInt_mem (lo hi : ℕ) (g : Prng) (h : lo ≤ hi) :
    lo ≤ (randInt lo hi g).1 ∧ (randInt lo hi g).1 ≤ hi := by
  unfold randInt
  refine ⟨Nat.le_add_right _ _, ?_⟩
  have := Nat.mod_lt (g 0) (y := hi + 1 - lo) (by omega)
  simp only
  omega

lemma sampleAux_spec (n : ℕ) : ∀ (k i : ℕ) (arr : List ℕ) (g : Prng),
    arr.length = n → i + k ≤ n →
    (sampleAux n i k arr g).2.1.length = n ∧
    List.Perm (sampleAux n i k arr g).2.1 arr ∧
    (sampleAux n i k arr g).1.length = k ∧
    (∀ p, p < i → (sampleAux n i k arr g).2.1.getD p 0 = arr.getD p 0) ∧
    (sampleAux n i k arr g).1 =
      (List.range' i k).map (fun p => (sampleAux n i k arr g).2.1.getD p 0) := by
  intro k
  induction k with
  | zero =>
    intro i arr g hlen _
    simp [sampleAux, hlen]
  | succ k ih =>
    intro i arr g hlen hik
    have hin : i < n := by omega
    have hr := randInt_mem i (n - 1) g (by omega)
    have hj : (randInt i (n - 1) g).1 < arr.length := by omega
    have hi' : i < arr.length := by omega
    have harr1len : (listSwap arr i (randInt i (n - 1) g).1).length = n := by
      rw [listSwap_length]; exact hlen
    have hperm1 : List.Perm (listSwap arr i (randInt i (n - 1) g).1) arr :=
      listSwap_perm arr _ _ hi' hj
    obtain ⟨ihlen, ihperm, ihdlen, ihpres, ihdraw⟩ :=
      ih (i + 1) (listSwap arr i (randInt i (n - 1) g).1) (randInt i (n - 1) g).2
        harr1len (by omega)
    simp only [sampleAux]
    refine ⟨ihlen, ihperm.trans hperm1, by simp [ihdlen], ?_, ?_⟩
    · intro p hp
      rw [ihpres p (by omega)]
      exact listSwap_getD_ne arr i _ p (by omega) (by omega)
    · rw [List.range'_succ, List.map_cons, ← ihpres i (by omega), ihdraw]

lemma sample_spec (corrs : List CameraFeatureCorrespondence2D3D) (arr : List ℕ)
    (g : Prng) (h4 : kMinimalSampleSize ≤ corrs.length)
    (harr : List.Perm arr (List.range corrs.length)) :
    (sampleIndices corrs.length arr g).1.length = kMinimalSampleSize ∧
    (sampleIndices corrs.length arr g).1.Nodup ∧
    (∀ d ∈ (sampleIndices corrs.length arr g).1, d < corrs.length) ∧
    List.Perm (sampleIndices corrs.length arr g).2.1 (List.range corrs.length) ∧
    (sample corrs arr g).1 =
      (sampleIndices corrs.length arr g).1.map (fun d => corrs.getD d defaultCorr) ∧
    (sample corrs arr g).2.1 = (sampleIndices corrs.length arr g).2.1 := by
  have hlen : arr.length = corrs.length := by
    simpa using harr.length_eq
  obtain ⟨hflen0, hfperm0, hdlen0, _, hdraw0⟩ :=
    sampleAux_spec corrs.length kMinimalSampleSize 0 arr g hlen (by omega)
  have hflen : (sampleIndices corrs.length arr g).2.1.length = corrs.length := hflen0
  have hfperm : List.Perm (sampleIndices corrs.length arr g).2.1 arr := hfperm0
  have hdlen : (sampleIndices corrs.length arr g).1.length = kMinimalSampleSize := hdlen0
  have hdraw : (sampleIndices corrs.length arr g).1 =
      (List.range' 0 kMinimalSampleSize).map
        (fun p => (sampleIndices corrs.length arr g).2.1.getD p 0) := hdraw0
  have hpermrange :
      List.Perm (sampleIndices corrs.length arr g).2.1 (List.range corrs.length) :=
    hfperm.trans harr
  have hnodupfin : (sampleIndices corrs.length arr g).2.1.Nodup :=
    hpermrange.nodup_iff.mpr (List.nodup_range corrs.length)
  have hmemval : ∀ p, p < corrs.length →
      (sampleIndices corrs.length arr g).2.1.getD p 0 < corrs.length := by
    intro p hp
    have hp' : p < (sampleIndices corrs.length arr g).2.1.length := by
      rw [hflen]; exact hp
    rw [getD_eq_getElem _ p hp']
    have : (sampleIndices corrs.length arr g).2.1[p] ∈
        List.range corrs.length :=
      hpermrange.mem_iff.mp (List.getElem_mem hp')
    exact List.mem_range.mp this
  refine ⟨hdlen, ?_, ?_, hpermrange, rfl, rfl⟩
  · rw [hdraw]
    refine List.Nodup.map_on ?_ (List.nodup_range' 0 kMinimalSampleSize)
    intro x hx y hy hxy
    have hx' : x < (sampleIndices corrs.length arr g).2.1.length := by
      rw [hflen]
      have := List.mem_range'_1.mp hx
      omega
    have hy' : y < (sampleIndices corrs.length arr g).2.1.length := by
      rw [hflen]
      have := List.mem_range'_1.mp hy
      omega
    rw [getD_eq_getElem _ x hx', getD_eq_getElem _ y hy'] at hxy
    exact (List.Nodup.getElem_inj_iff hnodupfin).mp hxy
  · intro d hd
    rw [hdraw] at hd
    obtain ⟨p, hp, hpd⟩ := List.mem_map.mp hd
    have hp' := List.mem_range'_1.mp hp
    rw [← hpd]
    exact hmemval p (by omega)

/-! ### UpdateBestSolution helper lemmas -/

lemma ubsAt_eq (corrs : List CameraFeatureCorrespondence2D3D) (thresh2 : ℚ)
    (sols : Solution) (i : ℕ) (acc : ℚ × Solution × List ℕ) :
    ubsAt corrs thresh2 sols i acc =
      if acc.2.2.length < cntAt corrs thresh2 sols i then
        ((cntAt corrs thresh2 sols i : ℚ) / (corrs.length : ℚ),
          ⟨acc.2.1.rotations.set 0 (hypAt sols i).1,
            acc.2.1.translations.set 0 (hypAt sols i).2.1,
            acc.2.1.scales.set 0 (hypAt sols i).2.2⟩,
          inlierIndices corrs thresh2 (hypAt sols i).1 (hypAt sols i).2.1
            (hypAt sols i).2.2)
      else acc := by
  simp only [ubsAt, ubsStep, cntAt]

lemma ubs_fold_len_mono (corrs : List CameraFeatureCorrespondence2D3D)
    (thresh2 : ℚ) (sols : Solution) (L : List ℕ) :
    ∀ acc : ℚ × Solution × List ℕ,
      acc.2.2.length ≤
        (L.foldl (fun a i => ubsAt corrs thresh2 sols i a) acc).2.2.length := by
  induction L with
  | nil => intro acc; simp
  | cons j L ih =>
    intro acc
    rw [List.foldl_cons]
    refine le_trans ?_ (ih _)
    rw [ubsAt_eq]
    split
    · next h => exact le_of_lt h
    · exact le_rfl

lemma ubs_fold_ge_cnt (corrs : List CameraFeatureCorrespondence2D3D)
    (thresh2 : ℚ) (sols : Solution) (L : List ℕ) :
    ∀ acc : ℚ × Solution × List ℕ, ∀ i ∈ L,
      cntAt corrs thresh2 sols i ≤
        (L.foldl (fun a i => ubsAt corrs thresh2 sols i a) acc).2.2.length := by
  induction L with
  | nil => intro acc i hi; simp at hi
  | cons j L ih =>
    intro acc i hi
    rw [List.foldl_cons]
    rcases List.mem_cons.mp hi with rfl | hi'
    · refine le_trans ?_ (ubs_fold_len_mono corrs thresh2 sols L _)
      rw [ubsAt_eq]
      split
      · next h => exact le_rfl
      · next h => omega
    · exact ih _ i hi'

lemma ubs_fold_no_improve (corrs : List CameraFeatureCorrespondence2D3D)
    (thresh2 : ℚ) (sols : Solution) (L : List ℕ) :
    ∀ acc : ℚ × Solution × List ℕ,
      (∀ i ∈ L, cntAt corrs thresh2 sols i ≤ acc.2.2.length) →
      L.foldl (fun a i => ubsAt corrs thresh2 sols i a) acc = acc := by
  induction L with
  | nil => intro acc _; simp
  | cons j L ih =>
    intro acc hle
    rw [List.foldl_cons]
    have hj : ubsAt corrs thresh2 sols j acc = acc := by
      rw [ubsAt_eq]
      split
      · next h => exact absurd (hle j (List.mem_cons_self j L)) (by omega)
      · rfl
    rw [hj]
    exact ih acc (fun i hi => hle i (List.mem_cons_of_mem j hi))

lemma ubs_fold_ratio_inv (corrs : List CameraFeatureCorrespondence2D3D)
    (thresh2 : ℚ) (sols : Solution) (L : List ℕ) :
    ∀ acc : ℚ × Solution × List ℕ,
      acc.1 = (acc.2.2.length : ℚ) / (corrs.length : ℚ) →
      (L.foldl (fun a i => ubsAt corrs thresh2 sols i a) acc).1 =
        (((L.foldl (fun a i => ubsAt corrs thresh2 sols i a) acc).2.2.length : ℚ)
          / (corrs.length : ℚ)) := by
  induction L with
  | nil => intro acc h; simpa using h
  | cons j L ih =>
    intro acc h
    rw [List.foldl_cons]
    refine ih _ ?_
    rw [ubsAt_eq]
    split
    · rfl
    · exact h

lemma ubs_fold_improve (corrs : List CameraFeatureCorrespondence2D3D)
    (thresh2 : ℚ) (sols : Solution) (L : List ℕ) :
    ∀ acc : ℚ × Solution × List ℕ,
      (∃ i ∈ L, acc.2.2.length < cntAt corrs thresh2 sols i) →
      acc.2.2.length <
        (L.foldl (fun a i => ubsAt corrs thresh2 sols i a) acc).2.2.length ∧
      (L.foldl (fun a i => ubsAt corrs thresh2 sols i a) acc).1 =
        (((L.foldl (fun a i => ubsAt corrs thresh2 sols i a) acc).2.2.length : ℚ)
          / (corrs.length : ℚ)) := by
  induction L with
  | nil => intro acc h; simp at h
  | cons j L ih =>
    intro acc h
    rw [List.foldl_cons]
    by_cases hj : acc.2.2.length < cntAt corrs thresh2 sols j
    · have hstep : (ubsAt corrs thresh2 sols j acc).2.2.length =
          cntAt corrs thresh2 sols j ∧
          (ubsAt corrs thresh2 sols j acc).1 =
            ((ubsAt corrs thresh2 sols j acc).2.2.length : ℚ) / (corrs.length : ℚ) := by
        rw [ubsAt_eq]
        split
        · exact ⟨rfl, rfl⟩
        · next hc => exact absurd hj hc
      constructor
      · calc acc.2.2.length < cntAt corrs thresh2 sols j := hj
          _ = (ubsAt corrs thresh2 sols j acc).2.2.length := hstep.1.symm
          _ ≤ _ := ubs_fold_len_mono corrs thresh2 sols L _
      · exact ubs_fold_ratio_inv corrs thresh2 sols L _ hstep.2
    · have hkeep : ubsAt corrs thresh2 sols j acc = acc := by
        rw [ubsAt_eq]
        split
        · next hc => exact absurd hc hj
        · rfl
      rw [hkeep]
      refine ih acc ?_
      obtain ⟨i, hi, hlt⟩ := h
      rcases List.mem_cons.mp hi with rfl | hi'
      · exact absurd hlt hj
      · exact ⟨i, hi', hlt⟩

lemma updateBestSolution_no_improve (corrs : List CameraFeatureCorrespondence2D3D)
    (thresh2 : ℚ) (sols : Solution) (best : Solution) (binl : List ℕ)
    (h : ∀ i, i < sols.rotations.length →
      cntAt corrs thresh2 sols i ≤ binl.length) :
    updateBestSolution corrs thresh2 sols best binl =
      ((binl.length : ℚ) / (corrs.length : ℚ) + epsQ, best, binl) := by
  unfold updateBestSolution
  exact ubs_fold_no_improve corrs thresh2 sols _ _
    (fun i hi => h i (List.mem_range.mp hi))

lemma updateBestSolution_pos (corrs : List CameraFeatureCorrespondence2D3D)
    (thresh2 : ℚ) (sols : Solution) (best : Solution) (binl : List ℕ)
    (hn : 0 < corrs.length) :
    (binl.length : ℚ) / (corrs.length : ℚ) <
      (updateBestSolution corrs thresh2 sols best binl).1 ∧
    0 < (updateBestSolution corrs thresh2 sols best binl).1 := by
  have hnq : (0 : ℚ) < (corrs.length : ℚ) := by exact_mod_cast hn
  have hbase : (0 : ℚ) ≤ (binl.length : ℚ) / (corrs.length : ℚ) :=
    div_nonneg (by positivity) (le_of_lt hnq)
  by_cases h : ∃ i ∈ List.range sols.rotations.length,
      binl.length < cntAt corrs thresh2 sols i
  · obtain ⟨hlt, hratio⟩ := ubs_fold_improve corrs thresh2 sols
      (List.range sols.rotations.length)
      ((binl.length : ℚ) / (corrs.length : ℚ) + epsQ, best, binl) h
    unfold updateBestSolution
    rw [hratio]
    have hcast : (binl.length : ℚ) <
        (((List.range sols.rotations.length).foldl
          (fun a i => ubsAt corrs thresh2 sols i a)
          ((binl.length : ℚ) / (corrs.length : ℚ) + epsQ, best, binl)).2.2.length : ℚ) := by
      exact_mod_cast hlt
    constructor
    · exact (div_lt_div_right hnq).mpr hcast
    · exact div_pos (lt_of_le_of_lt (by positivity) hcast) hnq
  · push_neg at h
    rw [updateBestSolution_no_improve corrs thresh2 sols best binl
      (fun i hi => h i (List.mem_range.mpr hi))]
    have hepos : (0 : ℚ) < epsQ := by norm_num [epsQ]
    exact ⟨by linarith, by linarith⟩

/-! ### Adaptive-bound and loop helper lemmas -/

lemma clampInt_mem (v lo hi : ℤ) (h : lo ≤ hi) :
    lo ≤ clampInt v lo hi ∧ clampInt v lo hi ≤ hi := by
  unfold clampInt
  split_ifs <;> omega

lemma computeMaxIterations_mem (params : RansacParameters) (r : ℚ) (lfp : ℝ)
    (h : params.min_iterations ≤ params.max_iterations) :
    params.min_iterations ≤ computeMaxIterations params r lfp ∧
      computeMaxIterations params r lfp ≤ params.max_iterations := by
  unfold computeMaxIterations
  split
  · exact ⟨le_rfl, h⟩
  · exact clampInt_mem _ _ _ h

lemma loopBody_some (params : RansacParameters) (solve : MinimalSolver)
    (priors : Priors) (corrs : List CameraFeatureCorrespondence2D3D) (lfp : ℝ)
    (st : LoopState) (hn : 0 < corrs.length) :
    ∃ st1, loopBody params solve priors corrs lfp st = some st1 ∧
      st1.num_iterations = st.num_iterations + 1 := by
  simp only [loopBody]
  cases hs : solve ⟨(sample corrs st.arr st.g).1, priors⟩ with
  | none => exact ⟨_, rfl, rfl⟩
  | some hyps =>
    have hpos := (updateBestSolution_pos corrs
      (params.reprojection_error_thresh * params.reprojection_error_thresh)
      hyps st.best st.inliers hn).2
    simp only [computeMaxIterationsChecked, if_pos hpos]
    exact ⟨_, rfl, rfl⟩

lemma loop_isSome (params : RansacParameters) (solve : MinimalSolver)
    (priors : Priors) (corrs : List CameraFeatureCorrespondence2D3D) (lfp : ℝ)
    (hn : 0 < corrs.length) :
    ∀ (f : ℕ) (st : LoopState),
      (loop params solve priors corrs lfp f st).isSome := by
  intro f
  induction f with
  | zero => intro st; simp [loop]
  | succ f ih =>
    intro st
    rw [loop]
    split
    · obtain ⟨st1, hb, _⟩ := loopBody_some params solve priors corrs lfp st hn
      rw [hb]
      exact ih st1
    · simp

lemma loopBody_it (params : RansacParameters) (solve : MinimalSolver)
    (priors : Priors) (corrs : List CameraFeatureCorrespondence2D3D) (lfp : ℝ)
    (st st1 : LoopState) :
    loopBody params solve priors corrs lfp st = some st1 →
    st1.num_iterations = st.num_iterations + 1 := by
  simp only [loopBody]
  cases hs : solve ⟨(sample corrs st.arr st.g).1, priors⟩ with
  | none =>
    intro h
    simp only [Option.some.injEq] at h
    rw [← h]
  | some hyps =>
    intro h
    dsimp only at h
    cases hc : computeMaxIterationsChecked params
        (updateBestSolution corrs
          (params.reprojection_error_thresh * params.reprojection_error_thresh)
          hyps st.best st.inliers).1 lfp with
    | none => rw [hc] at h; simp at h
    | some m =>
      rw [hc] at h
      simp only [Option.some.injEq] at h
      rw [← h]

lemma loop_it_mono (params : RansacParameters) (solve : MinimalSolver)
    (priors : Priors) (corrs : List CameraFeatureCorrespondence2D3D) (lfp : ℝ) :
    ∀ (f : ℕ) (st st1 : LoopState),
      loop params solve priors corrs lfp f st = some st1 →
      st.num_iterations ≤ st1.num_iterations := by
  intro f
  induction f with
  | zero =>
    intro st st1 h
    simp only [loop, Option.some.injEq] at h
    subst h
    exact le_rfl
  | succ f ih =>
    intro st st1 h
    rw [loop] at h
    split at h
    · cases hb : loopBody params solve priors corrs lfp st with
      | none => rw [hb] at h; simp at h
      | some st2 =>
        rw [hb] at h
        have h2 := ih st2 st1 h
        have h3 := loopBody_it params solve priors corrs lfp st st2 hb
        omega
    · simp only [Option.some.injEq] at h
      rw [← h]

lemma loop_solver_none (params : RansacParameters) (solve : MinimalSolver)
    (priors : Priors) (corrs : List CameraFeatureCorrespondence2D3D) (lfp : ℝ)
    (hnone : ∀ inp, solve inp = none) :
    ∀ (f : ℕ) (st : LoopState),
      st.num_iterations + f = st.maxIt.toNat → 0 ≤ st.maxIt →
      ∃ st1, loop params solve priors corrs lfp f st = some st1 ∧
        st1.num_iterations = st.num_iterations + f ∧ st1.best = st.best ∧
        st1.inliers = st.inliers ∧ st1.inlier_ratio = st.inlier_ratio ∧
        st1.maxIt = st.maxIt := by
  intro f
  induction f with
  | zero =>
    intro st _ _
    exact ⟨st, by simp [loop]⟩
  | succ f ih =>
    intro st hfuel hnn
    have hcond : (st.num_iterations : ℤ) < st.maxIt := by omega
    rw [loop, if_pos hcond]
    have hbody : loopBody params solve priors corrs lfp st =
        some { st with arr := (sample corrs st.arr st.g).2.1,
                       g := (sample corrs st.arr st.g).2.2,
                       num_iterations := st.num_iterations + 1 } := by
      simp only [loopBody, hnone]
    rw [hbody]
    obtain ⟨st1, hloop, hit, hbest, hinl, hratio, hmax⟩ :=
      ih { st with arr := (sample corrs st.arr st.g).2.1,
                   g := (sample corrs st.arr st.g).2.2,
                   num_iterations := st.num_iterations + 1 }
        (by show st.num_iterations + 1 + f = st.maxIt.toNat; omega)
        (show (0 : ℤ) ≤ st.maxIt from hnn)
    have hit' : st1.num_iterations = st.num_iterations + 1 + f := hit
    exact ⟨st1, hloop, by omega, hbest, hinl, hratio, hmax⟩

lemma loopBody_zero_inlier (params : RansacParameters) (solve : MinimalSolver)
    (priors : Priors) (corrs : List CameraFeatureCorrespondence2D3D) (lfp : ℝ)
    (hz : ∀ inp sol, solve inp = some sol → ∀ i, i < sol.rotations.length →
      cntAt corrs
        (params.reprojection_error_thresh * params.reprojection_error_thresh)
        sol i = 0)
    (st st1 : LoopState) (hinl : st.inliers = []) :
    loopBody params solve priors corrs lfp st = some st1 →
    st1.best = st.best ∧ st1.inliers = [] := by
  simp only [loopBody]
  cases hs : solve ⟨(sample corrs st.arr st.g).1, priors⟩ with
  | none =>
    intro h
    simp only [Option.some.injEq] at h
    rw [← h]
    exact ⟨rfl, hinl⟩
  | some hyps =>
    intro h
    dsimp only at h
    have hu : updateBestSolution corrs
        (params.reprojection_error_thresh * params.reprojection_error_thresh)
        hyps st.best st.inliers =
        ((st.inliers.length : ℚ) / (corrs.length : ℚ) + epsQ, st.best, st.inliers) := by
      refine updateBestSolution_no_improve corrs _ hyps st.best st.inliers ?_
      intro i hi
      rw [hz _ hyps hs i hi]
      exact Nat.zero_le _
    rw [hu] at h
    cases hc : computeMaxIterationsChecked params
        ((st.inliers.length : ℚ) / (corrs.length : ℚ) + epsQ) lfp with
    | none => rw [hc] at h; simp at h
    | some m =>
      rw [hc] at h
      simp only [Option.some.injEq] at h
      rw [← h]
      exact ⟨rfl, hinl⟩

lemma loop_zero_inlier (params : RansacParameters) (solve : MinimalSolver)
    (priors : Priors) (corrs : List CameraFeatureCorrespondence2D3D) (lfp : ℝ)
    (hz : ∀ inp sol, solve inp = some sol → ∀ i, i < sol.rotations.length →
      cntAt corrs
        (params.reprojection_error_thresh * params.reprojection_error_thresh)
        sol i = 0) :
    ∀ (f : ℕ) (st st1 : LoopState), st.inliers = [] →
      loop params solve priors corrs lfp f st = some st1 →
      st1.best = st.best ∧ st1.inliers = [] := by
  intro f
  induction f with
  | zero =>
    intro st st1 hinl h
    simp only [loop, Option.some.injEq] at h
    rw [← h]
    exact ⟨rfl, hinl⟩
  | succ f ih =>
    intro st st1 hinl h
    rw [loop] at h
    split at h
    · cases hb : loopBody params solve priors corrs lfp st with
      | none => rw [hb] at h; simp at h
      | some st2 =>
        rw [hb] at h
        obtain ⟨hb2, hi2⟩ :=
          loopBody_zero_inlier params solve priors corrs lfp hz st st2 hinl hb
        obtain ⟨hb1, hi1⟩ := ih st2 st1 hi2 h
        exact ⟨hb1.trans hb2, hi1⟩
    · simp only [Option.some.injEq] at h
      rw [← h]
      exact ⟨rfl, hinl⟩

lemma loopBody_ratio_nonneg (params : RansacParameters) (solve : MinimalSolver)
    (priors : Priors) (corrs : List CameraFeatureCorrespondence2D3D) (lfp : ℝ)
    (hn : 0 < corrs.length) (st st1 : LoopState) (h0 : 0 ≤ st.inlier_ratio) :
    loopBody params solve priors corrs lfp st = some st1 →
    0 ≤ st1.inlier_ratio := by
  simp only [loopBody]
  cases hs : solve ⟨(sample corrs st.arr st.g).1, priors⟩ with
  | none =>
    intro h
    simp only [Option.some.injEq] at h
    rw [← h]
    exact h0
  | some hyps =>
    intro h
    dsimp only at h
    cases hc : computeMaxIterationsChecked params
        (updateBestSolution corrs
          (params.reprojection_error_thresh * params.reprojection_error_thresh)
          hyps st.best st.inliers).1 lfp with
    | none => rw [hc] at h; simp at h
    | some m =>
      rw [hc] at h
      simp only [Option.some.injEq] at h
      rw [← h]
      exact le_of_lt (updateBestSolution_pos corrs _ hyps st.best st.inliers hn).2

lemma loop_ratio_nonneg (params : RansacParameters) (solve : MinimalSolver)
    (priors : Priors) (corrs : List CameraFeatureCorrespondence2D3D) (lfp : ℝ)
    (hn : 0 < corrs.length) :
    ∀ (f : ℕ) (st st1 : LoopState), 0 ≤ st.inlier_ratio →
      loop params solve priors corrs lfp f st = some st1 →
      0 ≤ st1.inlier_ratio := by
  intro f
  induction f with
  | zero =>
    intro st st1 h0 h
    simp only [loop, Option.some.injEq] at h
    rw [← h]
    exact h0
  | succ f ih =>
    intro st st1 h0 h
    rw [loop] at h
    split at h
    · cases hb : loopBody params solve priors corrs lfp st with
      | none => rw [hb] at h; simp at h
      | some st2 =>
        rw [hb] at h
        exact ih st2 st1
          (loopBody_ratio_nonneg params solve priors corrs lfp hn st st2 h0 hb) h
    · simp only [Option.some.injEq] at h
      rw [← h]
      exact h0

lemma loopBody_nh (params : RansacParameters) (solve : MinimalSolver)
    (priors : Priors) (corrs : List CameraFeatureCorrespondence2D3D) (lfp : ℝ)
    (st : LoopState) (c : ℕ) :
    loopBody params solve priors corrs lfp
        { st with num_hypotheses := st.num_hypotheses + c } =
      (loopBody params solve priors corrs lfp st).map
        (fun t => { t with num_hypotheses := t.num_hypotheses + c }) := by
  simp only [loopBody]
  cases hs : solve ⟨(sample corrs st.arr st.g).1, priors⟩ with
  | none => rfl
  | some hyps =>
    dsimp only
    cases hc : computeMaxIterationsChecked params
        (updateBestSolution corrs
          (params.reprojection_error_thresh * params.reprojection_error_thresh)
          hyps st.best st.inliers).1 lfp with
    | none => rfl
    | some m =>
      simp only [Option.map_some]
      have harith : st.num_hypotheses + c + hyps.rotations.length =
          st.num_hypotheses + hyps.rotations.length + c := by omega
      rw [harith]
      rfl

lemma loop_nh_shift (params : RansacParameters) (solve : MinimalSolver)
    (priors : Priors) (corrs : List CameraFeatureCorrespondence2D3D) (lfp : ℝ) :
    ∀ (f : ℕ) (st : LoopState) (c : ℕ),
      loop params solve priors corrs lfp f
          { st with num_hypotheses := st.num_hypotheses + c } =
        (loop params solve priors corrs lfp f st).map
          (fun t => { t with num_hypotheses := t.num_hypotheses + c }) := by
  intro f
  induction f with
  | zero => intro st c; simp [loop]
  | succ f ih =>
    intro st c
    rw [loop, loop]
    by_cases hcond : (st.num_iterations : ℤ) < st.maxIt
    · rw [if_pos hcond, if_pos hcond, loopBody_nh]
      cases hb : loopBody params solve priors corrs lfp st with
      | none => rfl
      | some st2 =>
        simp only [Option.map_some]
        exact ih st2 c
    · rw [if_neg hcond, if_neg hcond]
      rfl

lemma loop_succ (params : RansacParameters) (solve : MinimalSolver)
    (priors : Priors) (corrs : List CameraFeatureCorrespondence2D3D) (lfp : ℝ)
    (f : ℕ) (st : LoopState) :
    loop params solve priors corrs lfp (f + 1) st =
      if (st.num_iterations : ℤ) < st.maxIt then
        match loopBody params solve priors corrs lfp st with
        | none => none
        | some st1 => loop params solve priors corrs lfp f st1
      else some st := rfl

lemma loop_exit (params : RansacParameters) (solve : MinimalSolver)
    (priors : Priors) (corrs : List CameraFeatureCorrespondence2D3D) (lfp : ℝ)
    (f : ℕ) (st : LoopState) (h : ¬ (st.num_iterations : ℤ) < st.maxIt) :
    loop params solve priors corrs lfp f st = some st := by
  cases f with
  | zero => rfl
  | succ f => rw [loop_succ, if_neg h]

lemma estimateFull_some_ratio_it (params : RansacParameters) (solve : MinimalSolver)
    (priors : Priors) (corrs : List CameraFeatureCorrespondence2D3D)
    (s0 : RansacSummary) (st : LoopState) (hv : validParams params)
    (h : estimateFull params solve priors corrs s0 = some st) :
    0 ≤ st.inlier_ratio ∧ 1 ≤ st.num_iterations := by
  unfold estimateFull at h
  by_cases hlt : corrs.length < kMinimalSampleSize
  · rw [if_pos hlt] at h
    simp at h
  · rw [if_neg hlt] at h
    have h4 : kMinimalSampleSize ≤ corrs.length := not_lt.mp hlt
    have h4' : 4 ≤ corrs.length := h4
    have hn : 0 < corrs.length := by omega
    have hmaxpos : 0 < params.max_iterations :=
      lt_of_le_of_lt hv.2.2.2.1 hv.2.2.2.2
    obtain ⟨f, hf⟩ : ∃ f, params.max_iterations.toNat = f + 1 := by
      refine ⟨params.max_iterations.toNat - 1, ?_⟩
      omega
    rw [hf] at h
    rw [loop_succ] at h
    rw [if_pos (show ((initialLoopState params corrs s0).num_iterations : ℤ) <
      (initialLoopState params corrs s0).maxIt from by
        show ((0 : ℕ) : ℤ) < params.max_iterations
        omega)] at h
    constructor
    · cases hb : loopBody params solve priors corrs
          (Real.log (params.failure_probability : ℝ))
          (initialLoopState params corrs s0) with
      | none => rw [hb] at h; simp at h
      | some st2 =>
        rw [hb] at h
        refine loop_ratio_nonneg params solve priors corrs _ hn f st2 st ?_ h
        exact loopBody_ratio_nonneg params solve priors corrs _ hn _ st2 le_rfl hb
    · cases hb : loopBody params solve priors corrs
          (Real.log (params.failure_probability : ℝ))
          (initialLoopState params corrs s0) with
      | none => rw [hb] at h; simp at h
      | some st2 =>
        rw [hb] at h
        have hit2 : st2.num_iterations =
            (initialLoopState params corrs s0).num_iterations + 1 :=
          loopBody_it params solve priors corrs _ _ st2 hb
        have hmono := loop_it_mono params solve priors corrs _ f st2 st h
        have : (initialLoopState params corrs s0).num_iterations = 0 := rfl
        omega

/-! ### Claim theorems: construction, termination policy, determinism -/

/-- C8: estimator construction succeeds exactly when
`0 < failure_probability < 1`, `reprojection_error_thresh > 0`,
`min_iterations >= 0` and `max_iterations > min_iterations`; on success the
constructed estimator holds exactly the validated parameters and the
generator seeded from `seed`, and on violation construction fails
deterministically (`none`). -/
theorem c8_construction (p : RansacParameters) :
    ((mkEstimator p).isSome ↔
      (0 < p.failure_probability ∧ p.failure_probability < 1 ∧
        0 < p.reprojection_error_thresh ∧ 0 ≤ p.min_iterations ∧
        p.min_iterations < p.max_iterations)) ∧
    ∀ e, mkEstimator p = some e → e = ⟨p, prngOfSeed p.seed⟩ := by
  constructor
  · constructor
    · intro hs
      by_contra hcon
      have hv : ¬ validParams p := hcon
      simp [mkEstimator, hv] at hs
    · intro hcon
      have hv : validParams p := hcon
      simp [mkEstimator, hv]
  · intro e he
    by_cases hv : validParams p
    · simp [mkEstimator, hv] at he
      exact he.symm
    · simp [mkEstimator, hv] at he

/-- C7: for every inlier ratio in (0, 1] and every log failure probability,
`ComputeMaxIterations` returns a value clamped into
`[min_iterations, max_iterations]`. -/
theorem c7_computeMaxIterations_clamped (p : RansacParameters) (r : ℚ) (lfp : ℝ)
    (hv : validParams p) (hr0 : 0 < r) (hr1 : r ≤ 1) :
    p.min_iterations ≤ computeMaxIterations p r lfp ∧
      computeMaxIterations p r lfp ≤ p.max_iterations :=
  computeMaxIterations_mem p r lfp (le_of_lt hv.2.2.2.2)

/-- Witness for C7 at concrete parameters, ratio 1/2 and log failure
probability 0. -/
theorem c7_witness :
    pW.min_iterations ≤ computeMaxIterations pW (1/2) 0 ∧
      computeMaxIterations pW (1/2) 0 ≤ pW.max_iterations :=
  c7_computeMaxIterations_clamped pW (1/2) 0 (by norm_num [validParams, pW])
    (by norm_num) (by norm_num)

/-- C3: the embedding is pure, so two constructions and two `Estimate` calls
given identical parameters (including the seed), correspondences, priors and
incoming summary produce identical estimators, identical final run states
and identical (solution, summary) results. -/
theorem c3_determinism (p1 p2 : RansacParameters) (solve : MinimalSolver)
    (priors : Priors) (corrs : List CameraFeatureCorrespondence2D3D)
    (s1 s2 : RansacSummary) (hp : p1 = p2) (hs : s1 = s2) :
    mkEstimator p1 = mkEstimator p2 ∧
    estimateFull p1 solve priors corrs s1 = estimateFull p2 solve priors corrs s2 ∧
    estimate p1 solve priors corrs s1 = estimate p2 solve priors corrs s2 := by
  subst hp
  subst hs
  exact ⟨rfl, rfl, rfl⟩

/-- Witness for C3 at concrete inputs. -/
theorem c3_witness :
    mkEstimator pW = mkEstimator pW ∧
    estimateFull pW solverNone priors0 corrsHit sum0 =
      estimateFull pW solverNone priors0 corrsHit sum0 ∧
    estimate pW solverNone priors0 corrsHit sum0 =
      estimate pW solverNone priors0 corrsHit sum0 :=
  c3_determinism pW pW solverNone priors0 corrsHit sum0 sum0 rfl rfl

/-! ### Claim theorems: sampler -/

/-- C9: the sampler's index array is a permutation of
`[0, num_correspondences)` throughout a run: the per-run identity reset
establishes the permutation, and every `Sample` call preserves it. -/
theorem c9_sampler_permutation (params : RansacParameters)
    (corrs : List CameraFeatureCorrespondence2D3D) (s0 : RansacSummary) :
    List.Perm (initialLoopState params corrs s0).arr (List.range corrs.length) ∧
    ∀ (arr : List ℕ) (g : Prng), kMinimalSampleSize ≤ corrs.length →
      List.Perm arr (List.range corrs.length) →
      List.Perm (sample corrs arr g).2.1 (List.range corrs.length) := by
  refine ⟨List.Perm.refl _, ?_⟩
  intro arr g h4 harr
  obtain ⟨_, _, _, hperm, _, heq⟩ := sample_spec corrs arr g h4 harr
  rw [heq]
  exact hperm

/-- C6: every `Sample` call on at least `kMinimalSampleSize`
correspondences, with the index array in any permutation state reachable
from the per-run reset and for every generator stream, returns exactly
`kMinimalSampleSize = 4` correspondences drawn at 4 distinct in-range
underlying indices. -/
theorem c6_sample_distinct (corrs : List CameraFeatureCorrespondence2D3D)
    (arr : List ℕ) (g : Prng) (h4 : kMinimalSampleSize ≤ corrs.length)
    (harr : List.Perm arr (List.range corrs.length)) :
    (sample corrs arr g).1.length = kMinimalSampleSize ∧
    (sampleIndices corrs.length arr g).1.Nodup ∧
    (∀ d ∈ (sampleIndices corrs.length arr g).1, d < corrs.length) ∧
    (sample corrs arr g).1 =
      (sampleIndices corrs.length arr g).1.map (fun d => corrs.getD d defaultCorr) := by
  obtain ⟨hlen, hnodup, hmem, _, hmap, _⟩ := sample_spec corrs arr g h4 harr
  refine ⟨?_, hnodup, hmem, hmap⟩
  rw [hmap, List.length_map, hlen]

/-- Witness for C6: a concrete call on four correspondences from the
identity reset. -/
theorem c6_witness :
    (sample corrsHit (List.range corrsHit.length) (prngOfSeed 0)).1.length =
      kMinimalSampleSize ∧
    (sampleIndices corrsHit.length (List.range corrsHit.length)
      (prngOfSeed 0)).1.Nodup ∧
    (∀ d ∈ (sampleIndices corrsHit.length (List.range corrsHit.length)
      (prngOfSeed 0)).1, d < corrsHit.length) ∧
    (sample corrsHit (List.range corrsHit.length) (prngOfSeed 0)).1 =
      (sampleIndices corrsHit.length (List.range corrsHit.length)
        (prngOfSeed 0)).1.map (fun d => corrsHit.getD d defaultCorr) :=
  c6_sample_distinct corrsHit (List.range corrsHit.length) (prngOfSeed 0)
    (by decide) (List.Perm.refl _)

/-! ### Claim theorems: the ratio CHECK is unreachable -/

/-- C10: in every `Estimate` run on at least `kMinimalSampleSize`
correspondences, the fatal `CHECK_GT(inlier_ratio, 0.0)` inside
`ComputeMaxIterations` never fires: every ratio handed to it comes from
`UpdateBestSolution` and is strictly positive, so the run always completes
(`estimateFull` is `some`). -/
theorem c10_check_unreachable (params : RansacParameters) (solve : MinimalSolver)
    (priors : Priors) (corrs : List CameraFeatureCorrespondence2D3D)
    (s0 : RansacSummary) (h4 : kMinimalSampleSize ≤ corrs.length) :
    (estimateFull params solve priors corrs s0).isSome := by
  unfold estimateFull
  have h4' : 4 ≤ corrs.length := h4
  rw [if_neg (by omega)]
  exact loop_isSome params solve priors corrs _ (by omega) _ _

/-- Witness for C10 at a concrete run. -/
theorem c10_witness :
    (estimateFull pW solverId priors0 corrsHit sum0).isSome :=
  c10_check_unreachable pW solverId priors0 corrsHit sum0 (by decide)

/-! ### Claim theorem: UpdateBestSolution -/

/-- C4: `UpdateBestSolution` returns the best inlier ratio seen across the
call (final best count over total, which dominates every hypothesis's count)
whenever some hypothesis strictly exceeds the incoming best count; when no
hypothesis improves it returns the incoming count over total plus machine
epsilon and leaves the best solution and inlier set untouched; the returned
ratio is always strictly positive and strictly above the incoming ratio. -/
theorem c4_updateBestSolution (corrs : List CameraFeatureCorrespondence2D3D)
    (thresh2 : ℚ) (sols : Solution) (best0 : Solution) (binl0 : List ℕ)
    (hn : 0 < corrs.length) :
    ((∃ i, i < sols.rotations.length ∧
        binl0.length < cntAt corrs thresh2 sols i) →
      (updateBestSolution corrs thresh2 sols best0 binl0).1 =
        ((updateBestSolution corrs thresh2 sols best0 binl0).2.2.length : ℚ) /
          (corrs.length : ℚ) ∧
      binl0.length < (updateBestSolution corrs thresh2 sols best0 binl0).2.2.length ∧
      ∀ i, i < sols.rotations.length →
        cntAt corrs thresh2 sols i ≤
          (updateBestSolution corrs thresh2 sols best0 binl0).2.2.length) ∧
    ((∀ i, i < sols.rotations.length →
        cntAt corrs thresh2 sols i ≤ binl0.length) →
      updateBestSolution corrs thresh2 sols best0 binl0 =
        ((binl0.length : ℚ) / (corrs.length : ℚ) + epsQ, best0, binl0)) ∧
    (binl0.length : ℚ) / (corrs.length : ℚ) <
      (updateBestSolution corrs thresh2 sols best0 binl0).1 ∧
    0 < (updateBestSolution corrs thresh2 sols best0 binl0).1 := by
  refine ⟨?_, updateBestSolution_no_improve corrs thresh2 sols best0 binl0,
    (updateBestSolution_pos corrs thresh2 sols best0 binl0 hn).1,
    (updateBestSolution_pos corrs thresh2 sols best0 binl0 hn).2⟩
  intro h
  obtain ⟨i, hi, hlt⟩ := h
  have himp : ∃ j ∈ List.range sols.rotations.length,
      ((binl0.length : ℚ) / (corrs.length : ℚ) + epsQ, best0,
        binl0).2.2.length < cntAt corrs thresh2 sols j :=
    ⟨i, List.mem_range.mpr hi, hlt⟩
  obtain ⟨hlt2, hratio⟩ := ubs_fold_improve corrs thresh2 sols
    (List.range sols.rotations.length)
    ((binl0.length : ℚ) / (corrs.length : ℚ) + epsQ, best0, binl0) himp
  refine ⟨hratio, hlt2, ?_⟩
  intro j hj
  exact ubs_fold_ge_cnt corrs thresh2 sols (List.range sols.rotations.length)
    _ j (List.mem_range.mpr hj)

/-- Witness for C4: an empty hypothesis set over four correspondences. -/
theorem c4_witness :
    ((∃ i, i < solEmpty.rotations.length ∧
        List.length ([] : List ℕ) < cntAt corrsHit 1 solEmpty i) →
      (updateBestSolution corrsHit 1 solEmpty identitySolution []).1 =
        ((updateBestSolution corrsHit 1 solEmpty identitySolution
          []).2.2.length : ℚ) / (corrsHit.length : ℚ) ∧
      List.length ([] : List ℕ) <
        (updateBestSolution corrsHit 1 solEmpty identitySolution
          []).2.2.length ∧
      ∀ i, i < solEmpty.rotations.length →
        cntAt corrsHit 1 solEmpty i ≤
          (updateBestSolution corrsHit 1 solEmpty identitySolution
            []).2.2.length) ∧
    ((∀ i, i < solEmpty.rotations.length →
        cntAt corrsHit 1 solEmpty i ≤ List.length ([] : List ℕ)) →
      updateBestSolution corrsHit 1 solEmpty identitySolution [] =
        ((List.length ([] : List ℕ) : ℚ) / (corrsHit.length : ℚ) + epsQ,
          identitySolution, [])) ∧
    (List.length ([] : List ℕ) : ℚ) / (corrsHit.length : ℚ) <
      (updateBestSolution corrsHit 1 solEmpty identitySolution []).1 ∧
    0 < (updateBestSolution corrsHit 1 solEmpty identitySolution []).1 :=
  c4_updateBestSolution corrsHit 1 solEmpty identitySolution [] (by decide)

/-! ### Claim theorem: final confidence -/

/-- C2 (amended): for every completing `Estimate` call with valid parameters,
the summary confidence is exactly `1 - (1 - r^K)^iters` for the last
observed inlier ratio `r >= 0` and at least one executed iteration; it lies
in `[0, 1]` whenever `r <= 1`, and in `[0, 1)` whenever `r < 1`.  (The claim's
half-open bound `[0, 1)` fails: a perfect last ratio `r = 1` yields
confidence exactly 1.) -/
theorem c2_confidence (params : RansacParameters) (solve : MinimalSolver)
    (priors : Priors) (corrs : List CameraFeatureCorrespondence2D3D)
    (s0 : RansacSummary) (hv : validParams params) :
    ((estimate params solve priors corrs s0).map (fun r => r.2.confidence) =
      (estimateFull params solve priors corrs s0).map
        (fun st => 1 - (1 - st.inlier_ratio ^ kMinimalSampleSize) ^
          st.num_iterations)) ∧
    ∀ st, estimateFull params solve priors corrs s0 = some st →
      0 ≤ st.inlier_ratio ∧ 1 ≤ st.num_iterations ∧
      (st.inlier_ratio ≤ 1 →
        0 ≤ 1 - (1 - st.inlier_ratio ^ kMinimalSampleSize) ^ st.num_iterations ∧
        1 - (1 - st.inlier_ratio ^ kMinimalSampleSize) ^ st.num_iterations ≤ 1) ∧
      (st.inlier_ratio < 1 →
        1 - (1 - st.inlier_ratio ^ kMinimalSampleSize) ^ st.num_iterations < 1) ∧
      (st.inlier_ratio = 1 →
        1 - (1 - st.inlier_ratio ^ kMinimalSampleSize) ^ st.num_iterations = 1) := by
  constructor
  · cases hE : estimateFull params solve priors corrs s0 <;> simp [estimate, hE]
  · intro st hE
    obtain ⟨hr0, hit1⟩ :=
      estimateFull_some_ratio_it params solve priors corrs s0 st hv hE
    refine ⟨hr0, hit1, ?_, ?_, ?_⟩
    · intro hr1
      have hpow1 : st.inlier_ratio ^ kMinimalSampleSize ≤ 1 :=
        pow_le_one₀ hr0 hr1
      have hpow0 : 0 ≤ st.inlier_ratio ^ kMinimalSampleSize :=
        pow_nonneg hr0 kMinimalSampleSize
      have hbpow1 : (1 - st.inlier_ratio ^ kMinimalSampleSize) ^
          st.num_iterations ≤ 1 :=
        pow_le_one₀ (by linarith) (by linarith)
      have hbpow0 : 0 ≤ (1 - st.inlier_ratio ^ kMinimalSampleSize) ^
          st.num_iterations :=
        pow_nonneg (by linarith) st.num_iterations
      constructor <;> linarith
    · intro hr1
      have hpowlt : st.inlier_ratio ^ kMinimalSampleSize < 1 :=
        pow_lt_one₀ hr0 hr1 (by norm_num [kMinimalSampleSize])
      have hbpos : 0 < (1 - st.inlier_ratio ^ kMinimalSampleSize) ^
          st.num_iterations :=
        pow_pos (by linarith) st.num_iterations
      linarith
    · intro hr1
      rw [hr1]
      have hitne : st.num_iterations ≠ 0 := by omega
      rw [one_pow, sub_self, zero_pow hitne, sub_zero]

/-! ### Evaluation lemmas for the perfect-fit run -/

lemma isInlier_hit (q : Quat) (t : Vec3) (s : ℚ) :
    isInlier 1 q t s corrHit = true := by
  simp [isInlier, corrHit, camHit, sqNorm2]

lemma inlierIndices_hit (q : Quat) (t : Vec3) (s : ℚ) :
    inlierIndices corrsHit 1 q t s = [0, 1, 2, 3] := by
  have hr : List.range (4 : ℕ) = [0, 1, 2, 3] := by decide
  simp [inlierIndices, corrsHit, hr, isInlier_hit]

lemma ubs_hit :
    updateBestSolution corrsHit 1 identitySolution identitySolution [] =
      (1, identitySolution, [0, 1, 2, 3]) := by
  simp [updateBestSolution, identitySolution, ubsAt, ubsStep, hypAt,
    inlierIndices_hit, show corrsHit.length = 4 from rfl,
    show List.range 1 = [0] from by decide]

lemma runHit_eval (s : RansacSummary) :
    (estimateFull pC2 solverId priors0 corrsHit s).map
      (fun st => (st.num_iterations, st.num_hypotheses, st.inlier_ratio, st.inliers)) =
      some (1, s.num_hypotheses + 1, 1, [0, 1, 2, 3]) := by
  have hth : pC2.reprojection_error_thresh * pC2.reprojection_error_thresh = 1 := by
    norm_num [pC2]
  have hchk : ∀ lfp : ℝ, computeMaxIterationsChecked pC2 1 lfp = some 0 := by
    intro lfp
    simp [computeMaxIterationsChecked, computeMaxIterations]
    rfl
  have hbody : loopBody pC2 solverId priors0 corrsHit
      (Real.log (pC2.failure_probability : ℝ)) (initialLoopState pC2 corrsHit s) =
      some { arr := (sample corrsHit (List.range corrsHit.length)
                      (prngOfSeed pC2.seed)).2.1,
             g := (sample corrsHit (List.range corrsHit.length)
                      (prngOfSeed pC2.seed)).2.2,
             best := identitySolution, inliers := [0, 1, 2, 3],
             num_iterations := 1, num_hypotheses := s.num_hypotheses + 1,
             inlier_ratio := 1, maxIt := 0 } := by
    simp only [loopBody, initialLoopState, solverId]
    rw [hth, ubs_hit, hchk _]
    rfl
  unfold estimateFull
  rw [if_neg (by decide : ¬ (corrsHit.length < kMinimalSampleSize))]
  rw [show pC2.max_iterations.toNat = 4 + 1 from rfl]
  rw [loop_succ, if_pos (show
    (((initialLoopState pC2 corrsHit s).num_iterations : ℤ) <
      (initialLoopState pC2 corrsHit s).maxIt) from by
        show ((0 : ℕ) : ℤ) < (5 : ℤ)
        decide)]
  rw [hbody]
  show Option.map _ (loop pC2 solverId priors0 corrsHit _ 4 _) = _
  rw [loop_exit _ _ _ _ _ _ _ (show ¬ _ from by
    show ¬ (((1 : ℕ) : ℤ) < (0 : ℤ))
    decide)]
  simp

lemma runHit_proj (s : RansacSummary) :
    ∃ st, estimateFull pC2 solverId priors0 corrsHit s = some st ∧
      st.num_iterations = 1 ∧ st.num_hypotheses = s.num_hypotheses + 1 ∧
      st.inlier_ratio = 1 ∧ st.inliers = [0, 1, 2, 3] := by
  have h := runHit_eval s
  rw [Option.map_eq_some'] at h
  obtain ⟨st, hE, hproj⟩ := h
  refine ⟨st, hE, ?_⟩
  simpa [Prod.ext_iff] using hproj

/-- Counterexample for C2: in the perfect-fit run (every correspondence an
inlier of the single hypothesis), the last observed inlier ratio is 1 and
the completed call writes confidence exactly 1, outside `[0, 1)`. -/
theorem c2_counterexample :
    validParams pC2 ∧ corrsHit.length = kMinimalSampleSize ∧
    (estimate pC2 solverId priors0 corrsHit sum0).map (fun r => r.2.confidence) =
      some 1 := by
  refine ⟨by norm_num [validParams, pC2], rfl, ?_⟩
  obtain ⟨st, hE, hit, _, hratio, _⟩ := runHit_proj sum0
  simp only [estimate, hE]
  simp only [Option.map_map, Option.map_some']
  simp [hit, hratio, kMinimalSampleSize]

/-- Witness for C2 (amended) at the perfect-fit run. -/
theorem c2_witness :
    ((estimate pC2 solverId priors0 corrsHit sum0).map (fun r => r.2.confidence) =
      (estimateFull pC2 solverId priors0 corrsHit sum0).map
        (fun st => 1 - (1 - st.inlier_ratio ^ kMinimalSampleSize) ^
          st.num_iterations)) ∧
    ∀ st, estimateFull pC2 solverId priors0 corrsHit sum0 = some st →
      0 ≤ st.inlier_ratio ∧ 1 ≤ st.num_iterations ∧
      (st.inlier_ratio ≤ 1 →
        0 ≤ 1 - (1 - st.inlier_ratio ^ kMinimalSampleSize) ^ st.num_iterations ∧
        1 - (1 - st.inlier_ratio ^ kMinimalSampleSize) ^ st.num_iterations ≤ 1) ∧
      (st.inlier_ratio < 1 →
        1 - (1 - st.inlier_ratio ^ kMinimalSampleSize) ^ st.num_iterations < 1) ∧
      (st.inlier_ratio = 1 →
        1 - (1 - st.inlier_ratio ^ kMinimalSampleSize) ^ st.num_iterations = 1) :=
  c2_confidence pC2 solverId priors0 corrsHit sum0 (by norm_num [validParams, pC2])

/-! ### Claim theorem: summary freshness -/

/-- C1 (amended): at the start of `Estimate` the summary's inlier set is
cleared, the iteration count is reset by the loop initializer, and the
confidence is overwritten at the end, so the result is independent of those
incoming fields and of any incoming field other than `num_hypotheses`; but
`num_hypotheses` is accumulated with `+=` and never reset, so the returned
summary equals the fresh-summary result with the caller's incoming
`num_hypotheses` added to its hypothesis count. -/
theorem c1_amended_reset (params : RansacParameters) (solve : MinimalSolver)
    (priors : Priors) (corrs : List CameraFeatureCorrespondence2D3D) :
    (∀ s1 s2 : RansacSummary, s1.num_hypotheses = s2.num_hypotheses →
      estimateFull params solve priors corrs s1 =
        estimateFull params solve priors corrs s2) ∧
    (∀ s : RansacSummary,
      estimateFull params solve priors corrs s =
        (estimateFull params solve priors corrs
          { s with num_hypotheses := 0 }).map
          (fun st => { st with
            num_hypotheses := st.num_hypotheses + s.num_hypotheses })) := by
  constructor
  · intro s1 s2 h
    unfold estimateFull
    have hi : initialLoopState params corrs s1 = initialLoopState params corrs s2 := by
      unfold initialLoopState
      rw [h]
    rw [hi]
  · intro s
    unfold estimateFull
    split
    · rfl
    · have hinit : initialLoopState params corrs s =
          { initialLoopState params corrs { s with num_hypotheses := 0 } with
            num_hypotheses :=
              (initialLoopState params corrs
                { s with num_hypotheses := 0 }).num_hypotheses +
                s.num_hypotheses } := by
        unfold initialLoopState
        simp
      rw [hinit, loop_nh_shift]

/-- Counterexample for C1: two runs identical except for the incoming
summary's `num_hypotheses` (0 versus 5) return summaries with hypothesis
counts 1 versus 6 — the returned summary depends on a value the summary
field held before the call. -/
theorem c1_counterexample :
    sum0.num_hypotheses = 0 ∧ sumB.num_hypotheses = 5 ∧
    (estimate pC2 solverId priors0 corrsHit sum0).map
      (fun r => r.2.num_hypotheses) = some 1 ∧
    (estimate pC2 solverId priors0 corrsHit sumB).map
      (fun r => r.2.num_hypotheses) = some 6 := by
  refine ⟨rfl, rfl, ?_, ?_⟩
  · obtain ⟨st, hE, _, hnh, _, _⟩ := runHit_proj sum0
    simp only [estimate, hE]
    simp only [Option.map_map, Option.map_some']
    simp [hnh, sum0]
  · obtain ⟨st, hE, _, hnh, _, _⟩ := runHit_proj sumB
    simp only [estimate, hE]
    simp only [Option.map_map, Option.map_some']
    simp [hnh, sumB]

/-! ### Claim theorem: all-outlier runs -/

/-- C5 (amended): when no hypothesis ever attains a single inlier,
`Estimate` returns the identity fallback solution with an empty inlier set;
and when additionally the minimal solver never produces a hypothesis, the
loop executes exactly `max_iterations` iterations (when zero-inlier
hypotheses are produced, the epsilon-nudged ratio re-derives the adaptive
bound, which can fall below `max_iterations` and end the loop early — see
the counterexample). -/
theorem c5_all_outliers (params : RansacParameters) (solve : MinimalSolver)
    (priors : Priors) (corrs : List CameraFeatureCorrespondence2D3D)
    (s0 : RansacSummary) (hv : validParams params)
    (h4 : kMinimalSampleSize ≤ corrs.length) :
    ((∀ inp sol, solve inp = some sol → ∀ i, i < sol.rotations.length →
        cntAt corrs
          (params.reprojection_error_thresh * params.reprojection_error_thresh)
          sol i = 0) →
      ∀ st, estimateFull params solve priors corrs s0 = some st →
        st.best = identitySolution ∧ st.inliers = []) ∧
    ((∀ inp, solve inp = none) →
      ∃ st, estimateFull params solve priors corrs s0 = some st ∧
        (st.num_iterations : ℤ) = params.max_iterations ∧
        st.best = identitySolution ∧ st.inliers = [] ∧ st.inlier_ratio = 0) := by
  have h4' : 4 ≤ corrs.length := h4
  constructor
  · intro hz st hE
    unfold estimateFull at hE
    rw [if_neg (by omega)] at hE
    have := loop_zero_inlier params solve priors corrs
      (Real.log (params.failure_probability : ℝ)) hz
      params.max_iterations.toNat (initialLoopState params corrs s0) st rfl hE
    exact this
  · intro hnone
    unfold estimateFull
    rw [if_neg (by omega)]
    obtain ⟨st1, hloop, hit, hbest, hinl, hratio, _⟩ :=
      loop_solver_none params solve priors corrs
        (Real.log (params.failure_probability : ℝ)) hnone
        params.max_iterations.toNat (initialLoopState params corrs s0)
        (by show (0 : ℕ) + params.max_iterations.toNat =
              params.max_iterations.toNat
            omega)
        (show (0 : ℤ) ≤ params.max_iterations from
          le_of_lt (lt_of_le_of_lt hv.2.2.2.1 hv.2.2.2.2))
    refine ⟨st1, hloop, ?_, hbest, hinl, hratio⟩
    have hmax : (0 : ℤ) ≤ params.max_iterations :=
      le_of_lt (lt_of_le_of_lt hv.2.2.2.1 hv.2.2.2.2)
    have hit' : st1.num_iterations = 0 + params.max_iterations.toNat := hit
    omega

/-- Witness for C5 (amended): the always-failing solver on four
correspondences. -/
theorem c5_witness :
    ((∀ inp sol, solverNone inp = some sol → ∀ i, i < sol.rotations.length →
        cntAt corrsHit
          (pW.reprojection_error_thresh * pW.reprojection_error_thresh)
          sol i = 0) →
      ∀ st, estimateFull pW solverNone priors0 corrsHit sum0 = some st →
        st.best = identitySolution ∧ st.inliers = []) ∧
    ((∀ inp, solverNone inp = none) →
      ∃ st, estimateFull pW solverNone priors0 corrsHit sum0 = some st ∧
        (st.num_iterations : ℤ) = pW.max_iterations ∧
        st.best = identitySolution ∧ st.inliers = [] ∧ st.inlier_ratio = 0) :=
  c5_all_outliers pW solverNone priors0 corrsHit sum0
    (by norm_num [validParams, pW]) (by decide)

/-! ### Evaluation lemmas for the all-outlier counterexample run -/

lemma log_ratio_lt_one :
    0 ≤ Real.log ((pC5.failure_probability : ℚ) : ℝ) /
        (Real.log (1 - ((epsQ : ℚ) : ℝ) ^ kMinimalSampleSize) - ((epsQ : ℚ) : ℝ)) ∧
    Real.log ((pC5.failure_probability : ℚ) : ℝ) /
        (Real.log (1 - ((epsQ : ℚ) : ℝ) ^ kMinimalSampleSize) - ((epsQ : ℚ) : ℝ)) < 1 := by
  have hfp : ((pC5.failure_probability : ℚ) : ℝ) = 1 - 1/2^53 := by
    norm_num [pC5]
  have hε : ((epsQ : ℚ) : ℝ) = 1/2^52 := by
    norm_num [epsQ]
  rw [hfp, hε, show kMinimalSampleSize = 4 from rfl]
  have hA0 : (0 : ℝ) < 1 - 1/2^53 := by norm_num
  have h1 : Real.exp (-(1/2^52 : ℝ)) ≤ (1 + 1/2^52)⁻¹ := by
    rw [Real.exp_neg]
    exact inv_le_inv_of_le (by positivity)
      (by linarith [Real.add_one_le_exp (1/2^52 : ℝ)])
  have h2 : ((1 : ℝ) + 1/2^52)⁻¹ < 1 - 1/2^53 := by
    rw [inv_lt_iff_one_lt_mul₀ (by positivity)]
    norm_num
  have hN : -(1/2^52 : ℝ) < Real.log (1 - 1/2^53) :=
    (Real.lt_log_iff_exp_lt hA0).mpr (lt_of_le_of_lt h1 h2)
  have hNneg : Real.log (1 - 1/2^53 : ℝ) < 0 := Real.log_neg hA0 (by norm_num)
  have hL4 : Real.log (1 - (1/2^52 : ℝ) ^ 4) ≤ 0 :=
    Real.log_nonpos (by norm_num) (by norm_num)
  have hDneg : Real.log (1 - (1/2^52 : ℝ) ^ 4) - 1/2^52 < 0 := by
    norm_num at hL4 ⊢
    linarith
  constructor
  · exact le_of_lt (div_pos_of_neg_of_neg hNneg hDneg)
  · rw [div_lt_one_iff]
    refine Or.inr (Or.inr ⟨hDneg, ?_⟩)
    linarith

lemma cmi_eps :
    computeMaxIterationsChecked pC5 epsQ
      (Real.log ((pC5.failure_probability : ℚ) : ℝ)) = some 0 := by
  have hne : epsQ ≠ 1 := by norm_num [epsQ]
  have hpos : (0 : ℚ) < epsQ := by norm_num [epsQ]
  obtain ⟨hq0, hq1⟩ := log_ratio_lt_one
  unfold computeMaxIterationsChecked computeMaxIterations
  rw [if_pos hpos, if_neg hne]
  have htr : intTrunc (Real.log ((pC5.failure_probability : ℚ) : ℝ) /
      (Real.log (1 - ((epsQ : ℚ) : ℝ) ^ kMinimalSampleSize) - ((epsQ : ℚ) : ℝ))) = 0 := by
    unfold intTrunc
    rw [if_pos hq0]
    exact Int.floor_eq_zero_iff.mpr ⟨hq0, hq1⟩
  rw [htr]
  rfl

lemma isInlier_miss (q : Quat) (t : Vec3) (s : ℚ) :
    isInlier 1 q t s corrMiss = false := by
  simp [isInlier, corrMiss, camMiss, sqNorm2]
  norm_num

lemma inlierIndices_miss (q : Quat) (t : Vec3) (s : ℚ) :
    inlierIndices corrsMiss 1 q t s = [] := by
  have hr : List.range (4 : ℕ) = [0, 1, 2, 3] := by decide
  simp [inlierIndices, corrsMiss, hr, isInlier_miss]

lemma cntAt_miss (sol : Solution) (i : ℕ) :
    cntAt corrsMiss 1 sol i = 0 := by
  simp [cntAt, inlierIndices_miss]

lemma ubs_miss :
    updateBestSolution corrsMiss 1 identitySolution identitySolution [] =
      (epsQ, identitySolution, []) := by
  rw [updateBestSolution_no_improve corrsMiss 1 identitySolution identitySolution []
    (fun i _ => by rw [cntAt_miss]; exact Nat.zero_le _)]
  norm_num [show corrsMiss.length = 4 from rfl]

lemma runMiss_eval :
    (estimateFull pC5 solverId priors0 corrsMiss sum0).map
      LoopState.num_iterations = some 1 := by
  have hth : pC5.reprojection_error_thresh * pC5.reprojection_error_thresh = 1 := by
    norm_num [pC5]
  have hbody : loopBody pC5 solverId priors0 corrsMiss
      (Real.log (pC5.failure_probability : ℝ)) (initialLoopState pC5 corrsMiss sum0) =
      some { arr := (sample corrsMiss (List.range corrsMiss.length)
                      (prngOfSeed pC5.seed)).2.1,
             g := (sample corrsMiss (List.range corrsMiss.length)
                      (prngOfSeed pC5.seed)).2.2,
             best := identitySolution, inliers := [],
             num_iterations := 1, num_hypotheses := 1,
             inlier_ratio := epsQ, maxIt := 0 } := by
    simp only [loopBody, initialLoopState, solverId]
    rw [hth, ubs_miss, cmi_eps]
    rfl
  unfold estimateFull
  rw [if_neg (by decide : ¬ (corrsMiss.length < kMinimalSampleSize))]
  rw [show pC5.max_iterations.toNat = 1 + 1 from rfl]
  rw [loop_succ, if_pos (show
    (((initialLoopState pC5 corrsMiss sum0).num_iterations : ℤ) <
      (initialLoopState pC5 corrsMiss sum0).maxIt) from by
        show ((0 : ℕ) : ℤ) < (2 : ℤ)
        decide)]
  rw [hbody]
  show Option.map _ (loop pC5 solverId priors0 corrsMiss _ 1 _) = _
  rw [loop_exit _ _ _ _ _ _ _ (show ¬ _ from by
    show ¬ (((1 : ℕ) : ℤ) < (0 : ℤ))
    decide)]
  rfl

/-- Counterexample for C5: with failure probability 1 - 2^-53 and
`max_iterations = 2`, a run in which the single hypothesis produced each
iteration scores zero inliers stops after 1 iteration, not
`max_iterations = 2` — the epsilon-nudged zero ratio drives the adaptive
bound below `max_iterations`. -/
theorem c5_counterexample :
    validParams pC5 ∧ corrsMiss.length = kMinimalSampleSize ∧
    (∀ inp sol, solverId inp = some sol → ∀ i, i < sol.rotations.length →
      cntAt corrsMiss
        (pC5.reprojection_error_thresh * pC5.reprojection_error_thresh)
        sol i = 0) ∧
    (estimateFull pC5 solverId priors0 corrsMiss sum0).map
      LoopState.num_iterations = some 1 ∧
    pC5.max_iterations = 2 := by
  refine ⟨by norm_num [validParams, pC5], rfl, ?_, runMiss_eval, rfl⟩
  intro inp sol hsol i _
  have hsol' : sol = identitySolution := by
    simpa [solverId] using hsol.symm
  have hth : pC5.reprojection_error_thresh * pC5.reprojection_error_thresh = 1 := by
    norm_num [pC5]
  rw [hsol', hth, cntAt_miss]
